import Mathlib

/-!
Shallow embedding of the doc_reader agent-orchestration subsystem
(`backend/app/ai/orchestrator.py`, `backend/app/ai/tool_schemas.py`,
`backend/app/services/event_service.py`, `backend/app/api/routes/queries.py`,
`backend/app/tasks/query_tasks.py`) together with theorems checking the
natural-language specification against it.

Modelling conventions:
- Python floats are modelled as rationals (`ℚ`); the clamp and range checks
  used by the code are exact on the inputs of interest.
- Python dict payloads of events are modelled as association lists
  `List (String × JVal)` built in the same key order as the code builds its
  keyword arguments.
- External collaborators (search index, relational repository, dependency
  service, suggestion-id generation, event-bus transport health) are supplied
  through an explicit environment record `Env`; the embedded functions are
  translated from the source handlers.
- Wall-clock time (timestamps, heartbeat timers, read timeouts) is not
  modelled; no claim settled here depends on timing.
-/

set_option maxRecDepth 100000
set_option maxHeartbeats 1000000

namespace DocReader

/-- JSON-like value stored in an event's flat data payload. -/
inductive JVal where
  | s (v : String)
  | i (v : Int)
  | q (v : ℚ)
  | b (v : Bool)
  | null
  | argsBag (v : List (String × String))
  deriving Repr, DecidableEq

/-- Python truthiness of a payload value (used by `data.get("_stream_end")`). -/
def JVal.truthy : JVal → Bool
  | .s v => v ≠ ""
  | .i v => v ≠ 0
  | .q v => v ≠ 0
  | .b v => v
  | .null => false
  | .argsBag v => v ≠ []

/-- Model of `dict.get(key)` on a flat payload. -/
def dataGet (d : List (String × JVal)) (k : String) : Option JVal :=
  (d.find? (fun p => p.1 = k)).map (fun p => p.2)

/-- The event kinds of `event_service.EventType`. -/
inductive EventType where
  | status
  | toolCall
  | searchComplete
  | suggestion
  | completed
  | error
  | heartbeat
  deriving Repr, DecidableEq

/-- Model of `event_service.QueryEvent` (timestamp omitted: wall-clock not modelled). -/
structure QueryEvent where
  event : EventType
  data : List (String × JVal)
  query_id : String
  deriving Repr, DecidableEq

/-- Model of `event.data.get("_stream_end")` truthiness test used by both bus readers. -/
def isStreamEnd (e : QueryEvent) : Bool :=
  match dataGet e.data "_stream_end" with
  | some v => v.truthy
  | none => false

/-- The stream-end sentinel published by `DirectEventPublisher.close` and
`RedisEventPublisher.close_sync`. -/
def streamEndEvent (queryId : String) : QueryEvent :=
  { event := .completed, data := [("_stream_end", .b true)], query_id := queryId }

/-- Model of `EventEmitter.status`. -/
def statusEvent (queryId status message : String) : QueryEvent :=
  { event := .status
    data := [("status", .s status), ("message", .s message)]
    query_id := queryId }

/-- Model of `EventEmitter.tool_call`: payload is the tool name and the raw args. -/
def toolCallEvent (queryId tool : String) (args : List (String × String)) : QueryEvent :=
  { event := .toolCall
    data := [("tool", .s tool), ("args", .argsBag args)]
    query_id := queryId }

/-- Model of `EventEmitter.search_complete` as invoked by
`ToolExecutor._emit_tool_events` (the `tool_name` kwarg is left at its
default `""`). -/
def searchCompleteEvent (queryId : String) (sectionsFound : Nat) (message : String) : QueryEvent :=
  { event := .searchComplete
    data := [("sections_found", .i sectionsFound),
             ("message", .s message),
             ("tool_name", .s "")]
    query_id := queryId }

/-- The `suggestion` event with the keyword arguments passed at the
`ToolExecutor._emit_tool_events` call site in `app/ai/orchestrator.py`. -/
def suggestionEvent (queryId suggestionId : String) (sectionTitle : Option String)
    (filePath : String) (confidence : ℚ) (preview : String) : QueryEvent :=
  { event := .suggestion
    data := [("suggestion_id", .s suggestionId),
             ("section_title", match sectionTitle with | some t => .s t | none => .null),
             ("file_path", .s filePath),
             ("confidence", .q confidence),
             ("preview", .s preview)]
    query_id := queryId }

/-- Model of `EventEmitter.completed`: `emit(COMPLETED, total_suggestions=..., query_id=self.query_id)`. -/
def completedEvent (queryId : String) (totalSuggestions : Nat) : QueryEvent :=
  { event := .completed
    data := [("total_suggestions", .i totalSuggestions), ("query_id", .s queryId)]
    query_id := queryId }

/-- Model of `EventEmitter.error`. -/
def errorEvent (queryId errMsg : String) (details : Option String) : QueryEvent :=
  { event := .error
    data := [("error", .s errMsg),
             ("details", match details with | some d => .s d | none => .null)]
    query_id := queryId }

/-! ### UUID-shaped identifier validation

Model of Python's `uuid.UUID(hex)` constructor as used by the
`field_validator`s in `app/ai/tool_schemas.py`: the constructor removes every
occurrence of `urn:` and `uuid:`, strips surrounding braces, removes all
hyphens, and then requires exactly 32 hexadecimal digits. -/

/-- Remove every occurrence of the pattern `pat` from the input (Python
`str.replace(pat, "")`); `fuel` bounds the recursion and is instantiated
with the input length, which suffices because each step consumes at least
one character. -/
def removeAllSubAux (pat : List Char) : Nat → List Char → List Char
  | 0, l => l
  | _ + 1, [] => []
  | fuel + 1, c :: rest =>
    if pat.isPrefixOf (c :: rest) ∧ pat ≠ [] then
      removeAllSubAux pat fuel (rest.drop (pat.length - 1))
    else
      c :: removeAllSubAux pat fuel rest

/-- Remove every occurrence of the pattern `pat` from `l` (Python
`str.replace(pat, "")`). -/
def removeAllSub (pat l : List Char) : List Char :=
  removeAllSubAux pat l.length l

/-- Python strip of brace characters: drop leading and trailing braces. -/
def stripBraces (l : List Char) : List Char :=
  ((l.dropWhile (fun c => c = '{' ∨ c = '}')).reverse.dropWhile
    (fun c => c = '{' ∨ c = '}')).reverse

/-- Hexadecimal digit test. -/
def isHexChar (c : Char) : Bool :=
  c.isDigit ∨ ('a' ≤ c ∧ c ≤ 'f') ∨ ('A' ≤ c ∧ c ≤ 'F')

/-- Whether `uuid.UUID(s)` succeeds (model of the `validate_uuid`
field validators). -/
def pyUUIDValid (s : String) : Bool :=
  let cs := removeAllSub "uuid:".data (removeAllSub "urn:".data s.data)
  let cs := stripBraces cs
  let cs := cs.filter (fun c => c ≠ '-')
  cs.length = 32 ∧ cs.all isHexChar

/-! ### Tool argument schemas (`app/ai/tool_schemas.py`)

Raw tool arguments arrive as a JSON object; the fields any of the six
schemas may consume are modelled as optional fields of one record. -/

/-- The raw untyped argument bag of a tool call. -/
structure RawArgs where
  query : Option String := none
  n_results : Option Int := none
  file_path_filter : Option String := none
  section_id : Option String := none
  direction : Option String := none
  suggested_text : Option String := none
  reasoning : Option String := none
  confidence : Option ℚ := none
  document_id : Option String := none
  path_pattern : Option String := none
  deriving Repr, DecidableEq

/-- The raw args rendered for a `tool_call` event payload (field order of the
schema declarations; absent keys omitted, as in the original JSON object). -/
def RawArgs.toBag (a : RawArgs) : List (String × String) :=
  (match a.query with | some v => [("query", v)] | none => []) ++
  (match a.n_results with | some v => [("n_results", toString v)] | none => []) ++
  (match a.file_path_filter with | some v => [("file_path_filter", v)] | none => []) ++
  (match a.section_id with | some v => [("section_id", v)] | none => []) ++
  (match a.direction with | some v => [("direction", v)] | none => []) ++
  (match a.suggested_text with | some v => [("suggested_text", v)] | none => []) ++
  (match a.reasoning with | some v => [("reasoning", v)] | none => []) ++
  (match a.confidence with | some v => [("confidence", toString v)] | none => []) ++
  (match a.document_id with | some v => [("document_id", v)] | none => []) ++
  (match a.path_pattern with | some v => [("path_pattern", v)] | none => [])

/-- Validated `SemanticSearchArgs`. -/
structure SemanticSearchArgs where
  query : String
  n_results : Int
  file_path_filter : Option String
  deriving Repr, DecidableEq

/-- Validated `GetSectionContentArgs`. -/
structure GetSectionContentArgs where
  section_id : String
  deriving Repr, DecidableEq

/-- Validated `FindDependenciesArgs`. -/
structure FindDependenciesArgs where
  section_id : String
  direction : String
  deriving Repr, DecidableEq

/-- Validated `ProposeEditArgs`. -/
structure ProposeEditArgs where
  section_id : String
  suggested_text : String
  reasoning : String
  confidence : ℚ
  deriving Repr, DecidableEq

/-- Validated `GetDocumentStructureArgs`. -/
structure GetDocumentStructureArgs where
  document_id : String
  deriving Repr, DecidableEq

/-- Validated `SearchByFilePathArgs`. -/
structure SearchByFilePathArgs where
  path_pattern : String
  deriving Repr, DecidableEq

/-- The result of `validate_tool_args`: one of the six validated schemas. -/
inductive ValidatedArgs where
  | semanticSearch (a : SemanticSearchArgs)
  | getSectionContent (a : GetSectionContentArgs)
  | findDependencies (a : FindDependenciesArgs)
  | proposeEdit (a : ProposeEditArgs)
  | getDocumentStructure (a : GetDocumentStructureArgs)
  | searchByFilePath (a : SearchByFilePathArgs)
  deriving Repr, DecidableEq

/-- Model of `SemanticSearchArgs` validation: required `query` of length 1..5000,
`n_results` defaulting to 10 and constrained (rejected, not clamped) to
1..20 by the `ge`/`le` field bounds. -/
def validateSemanticSearch (a : RawArgs) : Except String ValidatedArgs :=
  match a.query with
  | none => .error "query: Field required"
  | some q =>
    if q.length < 1 then .error "query: String should have at least 1 character"
    else if q.length > 5000 then .error "query: String should have at most 5000 characters"
    else
      let n := a.n_results.getD 10
      if n < 1 then .error "n_results: Input should be greater than or equal to 1"
      else if n > 20 then .error "n_results: Input should be less than or equal to 20"
      else .ok (.semanticSearch { query := q, n_results := n, file_path_filter := a.file_path_filter })

/-- Model of `GetSectionContentArgs` validation: required UUID-shaped `section_id`. -/
def validateGetSectionContent (a : RawArgs) : Except String ValidatedArgs :=
  match a.section_id with
  | none => .error "section_id: Field required"
  | some sid =>
    if pyUUIDValid sid then .ok (.getSectionContent { section_id := sid })
    else .error ("Invalid UUID format: " ++ sid)

/-- Model of `FindDependenciesArgs` validation: required UUID-shaped `section_id`,
`direction` restricted to the literal set, default `both`. -/
def validateFindDependencies (a : RawArgs) : Except String ValidatedArgs :=
  match a.section_id with
  | none => .error "section_id: Field required"
  | some sid =>
    if ¬ pyUUIDValid sid then .error ("Invalid UUID format: " ++ sid)
    else
      let dir := a.direction.getD "both"
      if dir = "incoming" ∨ dir = "outgoing" ∨ dir = "both" then
        .ok (.findDependencies { section_id := sid, direction := dir })
      else .error "direction: Input should be 'incoming', 'outgoing' or 'both'"

/-- Model of `ProposeEditArgs` validation: required UUID-shaped `section_id`, non-empty
`suggested_text` and `reasoning`, and `confidence` defaulting to 0.5 and
constrained (rejected, not clamped) to the closed interval 0..1 by the
`ge=0.0, le=1.0` field bounds. -/
def validateProposeEdit (a : RawArgs) : Except String ValidatedArgs :=
  match a.section_id with
  | none => .error "section_id: Field required"
  | some sid =>
    if ¬ pyUUIDValid sid then .error ("Invalid UUID format: " ++ sid)
    else
      match a.suggested_text with
      | none => .error "suggested_text: Field required"
      | some st =>
        if st.length < 1 then .error "suggested_text: String should have at least 1 character"
        else
          match a.reasoning with
          | none => .error "reasoning: Field required"
          | some rs =>
            if rs.length < 1 then .error "reasoning: String should have at least 1 character"
            else
              let conf := a.confidence.getD (1 / 2)
              if conf < 0 then .error "confidence: Input should be greater than or equal to 0"
              else if conf > 1 then .error "confidence: Input should be less than or equal to 1"
              else .ok (.proposeEdit
                { section_id := sid, suggested_text := st, reasoning := rs, confidence := conf })

/-- Model of `GetDocumentStructureArgs` validation: required UUID-shaped `document_id`. -/
def validateGetDocumentStructure (a : RawArgs) : Except String ValidatedArgs :=
  match a.document_id with
  | none => .error "document_id: Field required"
  | some did =>
    if pyUUIDValid did then .ok (.getDocumentStructure { document_id := did })
    else .error ("Invalid UUID format: " ++ did)

/-- Model of `SearchByFilePathArgs` validation: required non-empty `path_pattern`. -/
def validateSearchByFilePath (a : RawArgs) : Except String ValidatedArgs :=
  match a.path_pattern with
  | none => .error "path_pattern: Field required"
  | some p =>
    if p.length < 1 then .error "path_pattern: String should have at least 1 character"
    else .ok (.searchByFilePath { path_pattern := p })

/-- Model of `validate_tool_args`: look up the schema for the tool name (unknown name
raises `Unknown tool: X`) and validate the raw args against it. -/
def validate_tool_args (toolName : String) (args : RawArgs) : Except String ValidatedArgs :=
  if toolName = "semantic_search" then validateSemanticSearch args
  else if toolName = "get_section_content" then validateGetSectionContent args
  else if toolName = "find_dependencies" then validateFindDependencies args
  else if toolName = "propose_edit" then validateProposeEdit args
  else if toolName = "get_document_structure" then validateGetDocumentStructure args
  else if toolName = "search_by_file_path" then validateSearchByFilePath args
  else .error ("Unknown tool: " ++ toolName)

/-! ### Collaborators, agent state and tool results -/

/-- A scored reference returned by the search collaborator. -/
structure SearchItem where
  section_id : String
  score : ℚ
  content_preview : Option String
  deriving Repr, DecidableEq

/-- One dependency record returned by the dependency collaborator. -/
structure DepInfo where
  dependency_id : String
  dep_section_id : String
  section_title : Option String
  dependency_type : String
  deriving Repr, DecidableEq

/-- A `DocumentSection` row together with its owning document's file path. -/
structure SectionRec where
  id : String
  section_title : Option String
  content : String
  file_path : Option String
  order : Nat
  deriving Repr, DecidableEq

/-- A `Document` row together with its sections. -/
structure DocumentRec where
  id : String
  file_path : String
  title : Option String
  sections : List SectionRec
  deriving Repr, DecidableEq

/-- The status of a persisted `EditSuggestion`. -/
inductive SuggestionStatus where
  | pending
  deriving Repr, DecidableEq

/-- A persisted `EditSuggestion` row created by `_handle_propose_edit`. -/
structure EditSuggestionRec where
  id : String
  query_id : String
  section_id : String
  original_text : String
  suggested_text : String
  reasoning : String
  confidence : ℚ
  status : SuggestionStatus
  deriving Repr, DecidableEq

/-- The summary record appended to `AgentState.proposed_edits` and returned
by a successful `_handle_propose_edit` (the `ProposeEditResult` success
shape). -/
structure EditInfo where
  suggestion_id : String
  section_id : String
  section_title : Option String
  file_path : Option String
  confidence : ℚ
  deriving Repr, DecidableEq

/-- External collaborators of the Tool Executor, plus the health of the event
bus transport: `emitRaises = some m` means any attempted event publication
raises an exception with message `m`. -/
structure Env where
  sections : String → Option SectionRec
  documents : String → Option DocumentRec
  search : String → Int → Option String → List SearchItem
  searchByPath : String → Int → List SearchItem
  dependencies : String → String → List DepInfo
  newSuggestionId : Nat → String
  emitRaises : Option String

/-- Model of `ToolResult`: the tagged union of flat result records a tool dispatch can
produce.  Record shapes with an error marker (section, propose-edit,
document-structure) get one constructor per marker state, mirroring the
`{..., "error": msg}` dict the handlers return. -/
inductive ToolResult where
  | toolError (error : String)
  | search (results : List SearchItem) (count : Nat) (query : String)
  | sectionContent (section_id : String) (section_title : Option String) (content : String)
      (file_path : Option String) (order : Nat)
  | sectionErr (error : String)
  | deps (section_id : String) (dependencies : List DepInfo)
  | proposeOk (info : EditInfo)
  | proposeErr (error : String)
  | docStructure (document_id : String) (file_path : String) (title : Option String)
      (sections : List (String × Option String × Nat))
  | docStructureErr (error : String)
  | filePathSearch (results : List SearchItem) (count : Nat) (pattern : String)
  deriving Repr, DecidableEq

/-- Conversation roles of the transcript. -/
inductive Role where
  | system
  | user
  | assistant
  | tool
  deriving Repr, DecidableEq

/-- One requested tool invocation from an assistant reply. -/
structure LlmToolCall where
  id : String
  name : String
  args : RawArgs
  deriving Repr, DecidableEq

/-- One transcript turn (`state.messages` element). -/
structure Message where
  role : Role
  content : String
  tool_call_id : Option String := none
  toolCalls : List LlmToolCall := []
  deriving Repr, DecidableEq

/-- Python `set.add`: insert a string if not already present. -/
def insertDedup (l : List String) (s : String) : List String :=
  if s ∈ l then l else l ++ [s]

/-- Model of `AgentState`: the per-run in-memory record of accumulated effects. -/
structure AgentState where
  query_id : String
  query_text : String
  searched_queries : List String := []
  analyzed_sections : List String := []
  proposed_edits : List EditInfo := []
  messages : List Message := []
  deriving Repr, DecidableEq

/-- Model of `AgentState.stats`. -/
structure AgentStats where
  searches_performed : Nat
  sections_analyzed : Nat
  suggestions_created : Nat
  deriving Repr, DecidableEq

/-- Model of `AgentState.stats`: counters derived from the accumulated effects. -/
def AgentState.stats (st : AgentState) : AgentStats :=
  { searches_performed := st.searched_queries.length
    sections_analyzed := st.analyzed_sections.length
    suggestions_created := st.proposed_edits.length }

/-- A plain rendering standing in for `json.dumps(tool_result)`; the
transcript stores the serialized result verbatim and no claim inspects the
concrete text. -/
def serializeToolResult : ToolResult → String
  | .toolError e => "\x7berror: " ++ e ++ "\x7d"
  | .search _ c q => "\x7bsearch: " ++ toString c ++ ", query: " ++ q ++ "\x7d"
  | .sectionContent sid _ _ _ _ => "\x7bsection: " ++ sid ++ "\x7d"
  | .sectionErr e => "\x7berror: " ++ e ++ "\x7d"
  | .deps sid _ => "\x7bdependencies: " ++ sid ++ "\x7d"
  | .proposeOk i => "\x7bsuggestion: " ++ i.suggestion_id ++ "\x7d"
  | .proposeErr e => "\x7berror: " ++ e ++ "\x7d"
  | .docStructure did _ _ _ => "\x7bdocument: " ++ did ++ "\x7d"
  | .docStructureErr e => "\x7berror: " ++ e ++ "\x7d"
  | .filePathSearch _ c p => "\x7bfile_path_search: " ++ toString c ++ ", pattern: " ++ p ++ "\x7d"

/-! ### Tool dispatch (`ToolExecutor` handlers, `app/ai/orchestrator.py`) -/

/-- Result of one handler dispatch: the tool result, the mutated agent state
and the persisted-suggestion table after the dispatch. -/
structure DispatchOut where
  result : ToolResult
  state : AgentState
  db : List EditSuggestionRec
  deriving Repr, DecidableEq

/-- Model of `_handle_semantic_search`: append the query to `searched_queries`
unconditionally, clamp the result count to at most 20, forward to the search
collaborator. -/
def handleSemanticSearch (env : Env) (st : AgentState) (db : List EditSuggestionRec)
    (a : SemanticSearchArgs) : DispatchOut :=
  let st := { st with searched_queries := st.searched_queries ++ [a.query] }
  let results := env.search a.query (min a.n_results 20) a.file_path_filter
  { result := .search results results.length a.query, state := st, db := db }

/-- Model of `_handle_get_section`: look up the section; on miss return the error
record; on hit add the id to `analyzed_sections` and return the content. -/
def handleGetSection (env : Env) (st : AgentState) (db : List EditSuggestionRec)
    (a : GetSectionContentArgs) : DispatchOut :=
  match env.sections a.section_id with
  | none =>
    { result := .sectionErr ("Section " ++ a.section_id ++ " not found"), state := st, db := db }
  | some sec =>
    let st := { st with analyzed_sections := insertDedup st.analyzed_sections a.section_id }
    { result := .sectionContent a.section_id sec.section_title sec.content sec.file_path sec.order
      state := st, db := db }

/-- Model of `_handle_find_dependencies`: forward id and direction to the dependency
collaborator and echo its answer. -/
def handleFindDependencies (env : Env) (st : AgentState) (db : List EditSuggestionRec)
    (a : FindDependenciesArgs) : DispatchOut :=
  { result := .deps a.section_id (env.dependencies a.section_id a.direction)
    state := st, db := db }

/-- Model of `_handle_propose_edit`: clamp confidence into the unit interval, look up
the section (miss returns the error record with no write), persist an
`EditSuggestion` whose `original_text` is the section's current stored
content, append the summary to `proposed_edits`, and return the summary. -/
def handleProposeEdit (env : Env) (st : AgentState) (db : List EditSuggestionRec)
    (a : ProposeEditArgs) : DispatchOut :=
  let confidence := max 0 (min 1 a.confidence)
  match env.sections a.section_id with
  | none =>
    { result := .proposeErr ("Section " ++ a.section_id ++ " not found"), state := st, db := db }
  | some sec =>
    let sid := env.newSuggestionId db.length
    let suggestion : EditSuggestionRec :=
      { id := sid
        query_id := st.query_id
        section_id := a.section_id
        original_text := sec.content
        suggested_text := a.suggested_text
        reasoning := a.reasoning
        confidence := confidence
        status := .pending }
    let info : EditInfo :=
      { suggestion_id := sid
        section_id := a.section_id
        section_title := sec.section_title
        file_path := sec.file_path
        confidence := confidence }
    { result := .proposeOk info
      state := { st with proposed_edits := st.proposed_edits ++ [info] }
      db := db ++ [suggestion] }

/-- Model of `_handle_get_document_structure`: look up the document; miss returns the
error record; hit returns its sections ordered by `order`. -/
def handleGetDocumentStructure (env : Env) (st : AgentState) (db : List EditSuggestionRec)
    (a : GetDocumentStructureArgs) : DispatchOut :=
  match env.documents a.document_id with
  | none =>
    { result := .docStructureErr ("Document " ++ a.document_id ++ " not found")
      state := st, db := db }
  | some doc =>
    let sorted := doc.sections.mergeSort (fun x y => x.order ≤ y.order)
    { result := .docStructure a.document_id doc.file_path doc.title
        (sorted.map (fun s => (s.id, s.section_title, s.order)))
      state := st, db := db }

/-- Model of `_handle_search_by_file_path`: forward the pattern with a server-side cap
of 20 results. -/
def handleSearchByFilePath (env : Env) (st : AgentState) (db : List EditSuggestionRec)
    (a : SearchByFilePathArgs) : DispatchOut :=
  let results := env.searchByPath a.path_pattern 20
  { result := .filePathSearch results results.length a.path_pattern, state := st, db := db }

/-- Dispatch a validated tool call to its handler. -/
def dispatch (env : Env) (st : AgentState) (db : List EditSuggestionRec) :
    ValidatedArgs → DispatchOut
  | .semanticSearch a => handleSemanticSearch env st db a
  | .getSectionContent a => handleGetSection env st db a
  | .findDependencies a => handleFindDependencies env st db a
  | .proposeEdit a => handleProposeEdit env st db a
  | .getDocumentStructure a => handleGetDocumentStructure env st db a
  | .searchByFilePath a => handleSearchByFilePath env st db a

/-- Model of `_emit_tool_events`: the side-channel events published after a dispatch —
a `search_complete` event after `semantic_search` and a `suggestion` event
after a successful `propose_edit`; nothing otherwise. -/
def emitsFor (queryId toolName : String) (rawArgs : RawArgs) : ToolResult → List QueryEvent
  | .search _ c _ =>
    if toolName = "semantic_search" then
      [searchCompleteEvent queryId c ("Found " ++ toString c ++ " relevant sections")]
    else []
  | .proposeOk info =>
    if toolName = "propose_edit" then
      [suggestionEvent queryId info.suggestion_id info.section_title
        (info.file_path.getD "") info.confidence
        ((rawArgs.suggested_text.getD "").take 200)]
    else []
  | _ => []

/-- Result of `ToolExecutor.execute`: tool result, state, persistence table
and the side-channel events actually delivered to the bus. -/
structure ExecOutcome where
  result : ToolResult
  state : AgentState
  db : List EditSuggestionRec
  events : List QueryEvent
  deriving Repr, DecidableEq

/-- Model of `ToolExecutor.execute`: validate (failure returns an error result at
once, touching nothing), dispatch to the handler, then emit side-channel
events.  The handler call and the event emission sit in one `try` block: an
exception raised while publishing is caught by the same broad handler and
turned into an error result, while the dispatch's state and persistence
effects remain. -/
def execute (env : Env) (st : AgentState) (db : List EditSuggestionRec)
    (toolName : String) (rawArgs : RawArgs) : ExecOutcome :=
  match validate_tool_args toolName rawArgs with
  | .error e =>
    { result := .toolError ("Validation error: " ++ e), state := st, db := db, events := [] }
  | .ok validated =>
    let out := dispatch env st db validated
    let evs := emitsFor st.query_id toolName rawArgs out.result
    match env.emitRaises with
    | some m =>
      if evs.isEmpty then
        { result := out.result, state := out.state, db := out.db, events := [] }
      else
        { result := .toolError m, state := out.state, db := out.db, events := [] }
    | none =>
      { result := out.result, state := out.state, db := out.db, events := evs }

/-! ### Orchestrator (`QueryOrchestrator.process`, `app/ai/orchestrator.py`) -/

/-- Model of `MAX_ITERATIONS`. -/
def MAX_ITERATIONS : Nat := 15

/-- Stands in for the fixed system instruction of `app/ai/prompts.py`
(`SYSTEM_PROMPT`); its concrete text is not claim-relevant. -/
def SYSTEM_PROMPT : String :=
  "You are a documentation analysis agent with access to search and edit tools."

/-- One assistant reply from the completion collaborator: optional text plus
a (possibly empty) list of requested tool calls. -/
structure LlmReply where
  content : Option String := none
  toolCalls : List LlmToolCall := []
  deriving Repr, DecidableEq

/-- The assistant turn appended to the transcript verbatim. -/
def assistantMessage (r : LlmReply) : Message :=
  { role := .assistant, content := r.content.getD "", toolCalls := r.toolCalls }

/-- The tool-result turn keyed by the call's correlation id. -/
def toolMessage (callId : String) (r : ToolResult) : Message :=
  { role := .tool, content := serializeToolResult r, tool_call_id := some callId }

/-- Persisted `QueryStatus` (`app/models/query.py`). -/
inductive QueryStatus where
  | pending
  | processing
  | completed
  | failed
  deriving Repr, DecidableEq

/-- The persisted run record (`Query` row); `completed_at_set` models whether
the completion timestamp has been stamped. -/
structure QueryRec where
  id : String
  query_text : String
  status : QueryStatus
  status_message : String := ""
  error_message : Option String := none
  completed_at_set : Bool := false
  deriving Repr, DecidableEq

/-- Accumulator threaded through the agentic loop: agent state, persisted
suggestions, emitted events and the tool calls dispatched so far (in order of
dispatch). -/
structure LoopAcc where
  st : AgentState
  db : List EditSuggestionRec
  events : List QueryEvent
  dispatched : List LlmToolCall
  deriving Repr, DecidableEq

/-- Inner loop of step 4.d: process each requested tool call in the order
given — emit a `tool_call` event, execute it, append the tool-result turn
keyed by the call's id, and let side-channel events flow. -/
def runToolCalls (env : Env) (acc : LoopAcc) : List LlmToolCall → LoopAcc
  | [] => acc
  | c :: rest =>
    let out := execute env acc.st acc.db c.name c.args
    let st := { out.state with
                messages := out.state.messages ++ [toolMessage c.id out.result] }
    runToolCalls env
      { st := st
        db := out.db
        events := acc.events ++ [toolCallEvent acc.st.query_id c.name c.args.toBag] ++ out.events
        dispatched := acc.dispatched ++ [c] }
      rest

/-- Outcome of the agentic loop: final accumulator, number of completion
calls made, the first uncaught completion failure if any, and whether the
loop exited through the no-tool-calls reply. -/
structure LoopOut where
  acc : LoopAcc
  calls : Nat
  error : Option String
  finalized : Bool
  deriving Repr, DecidableEq

/-- The bounded agentic loop (`for iteration in range(MAX_ITERATIONS)`), with
`fuel` the number of remaining iterations.  Each iteration sends the
transcript to the completion collaborator (`llm`), appends the reply, exits
on a no-tool-calls reply (emitting the `finalizing` status event), and
otherwise dispatches every requested tool call sequentially. -/
def agentLoop (env : Env) (llm : Nat → Except String LlmReply) :
    Nat → Nat → LoopAcc → LoopOut
  | 0, _, acc => { acc := acc, calls := 0, error := none, finalized := false }
  | fuel + 1, iter, acc =>
    match llm iter with
    | .error e => { acc := acc, calls := 1, error := some e, finalized := false }
    | .ok reply =>
      let acc := { acc with st := { acc.st with
        messages := acc.st.messages ++ [assistantMessage reply] } }
      if reply.toolCalls.isEmpty then
        { acc := { acc with events := acc.events ++
            [statusEvent acc.st.query_id "finalizing" "Completing analysis..."] }
          calls := 1, error := none, finalized := true }
      else
        let out := agentLoop env llm fuel (iter + 1) (runToolCalls env acc reply.toolCalls)
        { out with calls := out.calls + 1 }

/-- The loop accumulator at loop entry: the transcript seeded with exactly
the system turn and the user turn, the `processing` status event already
emitted, and nothing dispatched. -/
def initialAcc (queryId queryText : String) (db : List EditSuggestionRec) : LoopAcc :=
  { st := { query_id := queryId, query_text := queryText, messages :=
      [ { role := .system, content := SYSTEM_PROMPT },
        { role := .user, content :=
            "Documentation update request: " ++ queryText ++
            "\n\nPlease analyze the documentation and propose necessary updates." } ] }
    db := db
    events := [statusEvent queryId "processing" "Starting analysis..."]
    dispatched := [] }

/-- Outcome of one `QueryOrchestrator.process` invocation. -/
structure RunOutcome where
  queryAfter : Option QueryRec
  resultStatus : String
  resultError : Option String
  state : AgentState
  db : List EditSuggestionRec
  events : List QueryEvent
  dispatched : List LlmToolCall
  llmCalls : Nat
  escaped : Option String
  statusWrites : List QueryStatus
  deriving Repr, DecidableEq

/-- Model of `QueryOrchestrator.process`: load the run (absence is reported without a
status write); set `Processing` and persist; seed the transcript with the
system turn and the user turn; run the bounded loop; on normal exit set
`Completed` with the suggestion count and emit the `completed` event; on an
uncaught completion failure set `Failed` with the error text and emit an
`error` event.  A bus transport whose publish raises (`emitRaises = some m`)
makes the first emitter call raise outside the `try` block, so the exception
escapes `process` itself (`escaped`). -/
def processRun (env : Env) (llm : Nat → Except String LlmReply)
    (queryRow : Option QueryRec) (queryId queryText : String)
    (db : List EditSuggestionRec) : RunOutcome :=
  let st0 : AgentState := { query_id := queryId, query_text := queryText }
  match queryRow with
  | none =>
    match env.emitRaises with
    | some m =>
      { queryAfter := none, resultStatus := "", resultError := none, state := st0
        db := db, events := [], dispatched := [], llmCalls := 0, escaped := some m
        statusWrites := [] }
    | none =>
      { queryAfter := none, resultStatus := "failed"
        resultError := some "Query not found", state := st0, db := db
        events := [errorEvent queryId "Query not found" none]
        dispatched := [], llmCalls := 0, escaped := none, statusWrites := [] }
  | some q =>
    let q := { q with status := .processing, status_message := "Starting analysis..." }
    match env.emitRaises with
    | some m =>
      { queryAfter := some q, resultStatus := "", resultError := none, state := st0
        db := db, events := [], dispatched := [], llmCalls := 0, escaped := some m
        statusWrites := [.processing] }
    | none =>
      let out := agentLoop env llm MAX_ITERATIONS 0 (initialAcc queryId queryText db)
      match out.error with
      | some e =>
        let q := { q with status := .failed, error_message := some e }
        { queryAfter := some q, resultStatus := "failed", resultError := some e
          state := out.acc.st, db := out.acc.db
          events := out.acc.events ++ [errorEvent queryId e none]
          dispatched := out.acc.dispatched, llmCalls := out.calls, escaped := none
          statusWrites := [.processing, .failed] }
      | none =>
        let n := out.acc.st.proposed_edits.length
        let q := { q with
          status := .completed
          status_message := "Generated " ++ toString n ++ " suggestions"
          completed_at_set := true }
        { queryAfter := some q, resultStatus := "completed", resultError := none
          state := out.acc.st, db := out.acc.db
          events := out.acc.events ++ [completedEvent queryId n]
          dispatched := out.acc.dispatched, llmCalls := out.calls, escaped := none
          statusWrites := [.processing, .completed] }

/-! ### Event bus, in-process mode (`DirectEventPublisher`) -/

/-- State of a `DirectEventPublisher`: its single-consumer queue and the
closed flag. -/
structure DirectPublisher where
  query_id : String
  queue : List QueryEvent
  closed : Bool
  deriving Repr, DecidableEq

/-- Model of `DirectEventPublisher.publish`: enqueue unless the publisher is closed. -/
def DirectPublisher.publish (p : DirectPublisher) (e : QueryEvent) : DirectPublisher :=
  if p.closed then p else { p with queue := p.queue ++ [e] }

/-- Model of `DirectEventPublisher.close`: set the closed flag and enqueue the
stream-end sentinel. -/
def DirectPublisher.close (p : DirectPublisher) : DirectPublisher :=
  { p with closed := true, queue := p.queue ++ [streamEndEvent p.query_id] }

/-- Model of `DirectEventPublisher.events`: yield queued events in order until the
stream-end sentinel is seen; the sentinel itself is consumed, not yielded. -/
def directEventsView (queue : List QueryEvent) : List QueryEvent :=
  queue.takeWhile (fun e => ! isStreamEnd e)

/-! ### Event bus, durable mode (`RedisEventPublisher` / `RedisEventSubscriber`) -/

/-- Model of `STREAM_MAX_LEN`: retention cap of the capped append-log. -/
def STREAM_MAX_LEN : Nat := 1000

/-- Model of `XADD ... MAXLEN n`: append and keep only the most recent
`STREAM_MAX_LEN` entries (oldest entries are evicted past the cap). -/
def xadd (log : List QueryEvent) (e : QueryEvent) : List QueryEvent :=
  ((log ++ [e]).reverse.take STREAM_MAX_LEN).reverse

/-- Model of `RedisEventPublisher.publish_sync` applied to each event of a run in
order. -/
def publishAll : List QueryEvent → List QueryEvent → List QueryEvent
  | log, [] => log
  | log, e :: rest => publishAll (xadd log e) rest

/-- Model of `RedisEventPublisher.close_sync`: append the stream-end sentinel (the
TTL it also sets is wall-clock behaviour, not modelled). -/
def closeStream (queryId : String) (log : List QueryEvent) : List QueryEvent :=
  xadd log (streamEndEvent queryId)

/-- Model of `RedisEventSubscriber.events` read back over a log: the reader's cursor
starts at `0` (the beginning of the log), entries are yielded in order, and
the first stream-end sentinel terminates the read without being yielded.
Heartbeats and the wall-clock timeout are timing behaviour, not modelled. -/
def subscriberView (log : List QueryEvent) : List QueryEvent :=
  log.takeWhile (fun e => ! isStreamEnd e)

/-! ### Persisted run-status writes

`process_query_stream` and `process_query_celery`
(`app/api/routes/queries.py`) admit a run for processing only when its
current status is `PENDING` or `FAILED`; an admitted run is then set to
`PROCESSING` by `QueryOrchestrator.process`.  `COMPLETED` and `FAILED` are
written by the orchestrator from `PROCESSING`; `FAILED` is additionally
force-written by `QueryProcessingTask.on_failure` regardless of the current
status.  `PENDING` is set only at run creation. -/

/-- The route guard of `process_query_stream` / `process_query_celery`:
`query.status not in (PENDING, FAILED)` raises 400. -/
def processAdmits : QueryStatus → Bool
  | .pending => true
  | .failed => true
  | .processing => false
  | .completed => false

/-- Whether the system's write sites can move a persisted run from status
`s` to status `t`. -/
def statusWriteAllowed (s t : QueryStatus) : Bool :=
  match t with
  | .processing => processAdmits s
  | .completed => s == .processing
  | .failed => true
  | .pending => false

/-! ### Concrete fixtures used by witnesses and counterexamples -/

/-- A canonical UUID-shaped section identifier. -/
def uuidA : String := "123e4567-e89b-12d3-a456-426614174000"

/-- A UUID-shaped identifier present in no repository fixture. -/
def uuidB : String := "00000000-0000-0000-0000-000000000001"

/-- A concrete section row. -/
def secA : SectionRec :=
  { id := uuidA, section_title := some "Intro", content := "orig"
    file_path := some "doc.md", order := 0 }

/-- A concrete environment: one section, a healthy event bus. -/
def envA : Env :=
  { sections := fun sid => if sid = uuidA then some secA else none
    documents := fun _ => none
    search := fun _ _ _ => []
    searchByPath := fun _ _ => []
    dependencies := fun _ _ => []
    newSuggestionId := fun n => "sugg-" ++ toString n
    emitRaises := none }

/-- The same environment with a bus transport whose publish raises. -/
def envBoom : Env := { envA with emitRaises := some "Redis connection refused" }

/-- A fresh agent state. -/
def stA : AgentState := { query_id := "q1", query_text := "update docs" }

/-- Raw `propose_edit` arguments targeting `uuidA` with a given confidence. -/
def proposeArgs (c : ℚ) : RawArgs :=
  { section_id := some uuidA, suggested_text := some "new"
    reasoning := some "why", confidence := some c }

/-- Raw `semantic_search` arguments. -/
def searchArgs : RawArgs := { query := some "renamed field" }

/-- The suggestion row persisted by `propose_edit` with confidence 1 against
`envA` from `stA` and an empty table. -/
def suggA : EditSuggestionRec :=
  { id := "sugg-0", query_id := "q1", section_id := uuidA, original_text := "orig"
    suggested_text := "new", reasoning := "why", confidence := 1, status := .pending }

/-- A pending run record. -/
def qPending : QueryRec := { id := "q1", query_text := "t", status := .pending }

/-- A run record already in the terminal `Failed` status. -/
def qFailed : QueryRec := { id := "q1", query_text := "t", status := .failed }

/-- A completion collaborator that immediately replies without tool calls. -/
def llmDone : Nat → Except String LlmReply := fun _ => Except.ok {}

/-- A completion collaborator that always requests one tool call. -/
def llmAlwaysTool : Nat → Except String LlmReply :=
  fun _ => Except.ok { toolCalls := [{ id := "call-1", name := "bogus_tool", args := {} }] }

/-! ### Tool-call / transcript correlation (C9) -/

/-- Whether a bus event is a `tool_call` event. -/
def isToolCallEvent (e : QueryEvent) : Bool := e.event == .toolCall

/-- Whether a transcript turn is a tool-result turn. -/
def isToolTurn (m : Message) : Bool := m.role == .tool

/-- The correlation invariant of the loop accumulator: `tool_call` events
and tool-result turns are in an order-preserving one-to-one correspondence
with the dispatched tool calls — equal counts, the result turns keyed by
the dispatched calls' ids, and the events naming the dispatched calls'
tools. -/
def corrInv (acc : LoopAcc) : Prop :=
  (acc.events.filter isToolCallEvent).length =
    (acc.st.messages.filter isToolTurn).length ∧
  (acc.st.messages.filter isToolTurn).map (fun m => m.tool_call_id) =
    acc.dispatched.map (fun c => some c.id) ∧
  (acc.events.filter isToolCallEvent).map (fun e => dataGet e.data "tool") =
    acc.dispatched.map (fun c => some (JVal.s c.name))

/-! ### Helper lemmas about `validate_tool_args` and `execute` -/

theorem validate_tool_args_semantic_search (raw : RawArgs) :
    validate_tool_args "semantic_search" raw = validateSemanticSearch raw := rfl

theorem validate_tool_args_propose_edit (raw : RawArgs) :
    validate_tool_args "propose_edit" raw = validateProposeEdit raw := rfl

/-- A `propose_edit` argument bag whose supplied confidence lies outside the
unit interval fails schema validation. -/
theorem validateProposeEdit_out_of_range (raw : RawArgs) (c : ℚ)
    (hc : raw.confidence = some c) (hout : c < 0 ∨ 1 < c) :
    ∃ m, validateProposeEdit raw = Except.error m := by
  unfold validateProposeEdit
  rw [hc]
  split
  · exact ⟨_, rfl⟩
  · split
    · exact ⟨_, rfl⟩
    · split
      · exact ⟨_, rfl⟩
      · split
        · exact ⟨_, rfl⟩
        · split
          · exact ⟨_, rfl⟩
          · split
            · exact ⟨_, rfl⟩
            · simp only [Option.getD_some]
              split
              · exact ⟨_, rfl⟩
              · split
                · exact ⟨_, rfl⟩
                · rename_i h1 h2
                  rcases hout with h | h
                  · exact absurd h h1
                  · exact absurd h h2

/-- On a validation failure, `execute` returns the wrapped error result and
touches nothing. -/
theorem execute_of_validate_error (env : Env) (st : AgentState)
    (db : List EditSuggestionRec) (name : String) (raw : RawArgs) (e : String)
    (h : validate_tool_args name raw = Except.error e) :
    execute env st db name raw =
      { result := .toolError ("Validation error: " ++ e)
        state := st, db := db, events := [] } := by
  unfold execute
  rw [h]

/-- On a validation success, `execute` keeps the dispatch's persistence
table. -/
theorem execute_db_of_validate_ok (env : Env) (st : AgentState)
    (db : List EditSuggestionRec) (name : String) (raw : RawArgs) (v : ValidatedArgs)
    (h : validate_tool_args name raw = Except.ok v) :
    (execute env st db name raw).db = (dispatch env st db v).db := by
  unfold execute
  rw [h]
  cases env.emitRaises with
  | none => rfl
  | some m => by_cases he : (emitsFor st.query_id name raw (dispatch env st db v).result).isEmpty <;>
      simp [he]

/-- On a validation success, `execute` keeps the dispatch's agent state. -/
theorem execute_state_of_validate_ok (env : Env) (st : AgentState)
    (db : List EditSuggestionRec) (name : String) (raw : RawArgs) (v : ValidatedArgs)
    (h : validate_tool_args name raw = Except.ok v) :
    (execute env st db name raw).state = (dispatch env st db v).state := by
  unfold execute
  rw [h]
  cases env.emitRaises with
  | none => rfl
  | some m => by_cases he : (emitsFor st.query_id name raw (dispatch env st db v).result).isEmpty <;>
      simp [he]

/-- Any suggestion row a dispatch adds to the table carries a confidence in
the closed unit interval (the handler clamp). -/
theorem dispatch_confidence_bounds (env : Env) (st : AgentState)
    (db : List EditSuggestionRec) (v : ValidatedArgs) (s : EditSuggestionRec)
    (hs : s ∈ (dispatch env st db v).db) :
    s ∈ db ∨ (0 ≤ s.confidence ∧ s.confidence ≤ 1) := by
  cases v with
  | proposeEdit a =>
    have hd : dispatch env st db (ValidatedArgs.proposeEdit a) = handleProposeEdit env st db a := rfl
    rw [hd] at hs
    unfold handleProposeEdit at hs
    rcases hsec : env.sections a.section_id with _ | sec
    · rw [hsec] at hs
      exact Or.inl hs
    · rw [hsec] at hs
      simp only [List.mem_append, List.mem_singleton] at hs
      rcases hs with hs | hs
      · exact Or.inl hs
      · subst hs
        exact Or.inr ⟨le_max_left 0 _, max_le (by norm_num) (min_le_left 1 _)⟩
  | semanticSearch a => exact Or.inl hs
  | getSectionContent a =>
    have hd : dispatch env st db (ValidatedArgs.getSectionContent a) = handleGetSection env st db a := rfl
    rw [hd] at hs
    unfold handleGetSection at hs
    rcases hsec : env.sections a.section_id with _ | sec <;> rw [hsec] at hs <;> exact Or.inl hs
  | findDependencies a => exact Or.inl hs
  | getDocumentStructure a =>
    have hd : dispatch env st db (ValidatedArgs.getDocumentStructure a) =
        handleGetDocumentStructure env st db a := rfl
    rw [hd] at hs
    unfold handleGetDocumentStructure at hs
    rcases hdoc : env.documents a.document_id with _ | doc <;> rw [hdoc] at hs <;> exact Or.inl hs
  | searchByFilePath a => exact Or.inl hs

/-! ### Claims -/

/-- C1 counterexample: a `propose_edit` call with the claim's sample
out-of-range confidence −3 (all other fields valid) does not succeed with a
clamped stored confidence of 0.0 — it is rejected by validation: `execute`
returns an Error-variant result and persists nothing. -/
theorem confidence_out_of_range_is_rejected_cex :
    (execute envA stA [] "propose_edit" (proposeArgs (-3))).result =
      ToolResult.toolError "Validation error: confidence: Input should be greater than or equal to 0" ∧
    (execute envA stA [] "propose_edit" (proposeArgs (-3))).db = [] ∧
    (execute envA stA [] "propose_edit" (proposeArgs (-3))).state = stA := by
  refine ⟨?_, ?_, ?_⟩ <;> decide

/-- C1 (amended): a supplied confidence outside [0,1] fails `propose_edit`
argument validation — the call returns an Error-variant ToolResult and
neither the agent state nor the persistence table changes; and every
suggestion row any tool call adds to the table carries a confidence in
[0,1], because the handler stores `max(0.0, min(1.0, confidence))`. -/
theorem propose_edit_confidence_rejected_and_stored_in_range :
    (∀ (env : Env) (st : AgentState) (db : List EditSuggestionRec) (raw : RawArgs) (c : ℚ),
      raw.confidence = some c → (c < 0 ∨ 1 < c) →
      ∃ m, (execute env st db "propose_edit" raw).result = ToolResult.toolError m ∧
        (execute env st db "propose_edit" raw).db = db ∧
        (execute env st db "propose_edit" raw).state = st) ∧
    (∀ (env : Env) (st : AgentState) (db : List EditSuggestionRec) (name : String)
        (raw : RawArgs) (s : EditSuggestionRec),
      s ∈ (execute env st db name raw).db → s ∈ db ∨ (0 ≤ s.confidence ∧ s.confidence ≤ 1)) := by
  constructor
  · intro env st db raw c hc hout
    obtain ⟨m, hm⟩ := validateProposeEdit_out_of_range raw c hc hout
    have hv : validate_tool_args "propose_edit" raw = Except.error m := by
      rw [validate_tool_args_propose_edit]; exact hm
    rw [execute_of_validate_error env st db _ raw m hv]
    exact ⟨_, rfl, rfl, rfl⟩
  · intro env st db name raw s hs
    rcases hval : validate_tool_args name raw with e | v
    · rw [execute_of_validate_error env st db name raw e hval] at hs
      exact Or.inl hs
    · rw [execute_db_of_validate_ok env st db name raw v hval] at hs
      exact dispatch_confidence_bounds env st db v s hs

/-- C1 witness: the amended theorem applied at the concrete rejection input
−3 and at a concrete persisted suggestion with confidence 1. -/
theorem propose_edit_confidence_witness :
    (∃ m, (execute envA stA [] "propose_edit" (proposeArgs (-3))).result = ToolResult.toolError m ∧
      (execute envA stA [] "propose_edit" (proposeArgs (-3))).db = [] ∧
      (execute envA stA [] "propose_edit" (proposeArgs (-3))).state = stA) ∧
    (suggA ∈ ([] : List EditSuggestionRec) ∨ (0 ≤ suggA.confidence ∧ suggA.confidence ≤ 1)) :=
  ⟨propose_edit_confidence_rejected_and_stored_in_range.1 envA stA [] (proposeArgs (-3)) (-3)
      rfl (Or.inl (by norm_num)),
   propose_edit_confidence_rejected_and_stored_in_range.2 envA stA [] "propose_edit"
      (proposeArgs 1) suggA (by decide)⟩

/-- C3 counterexample: with a bus transport whose publish raises, a
`semantic_search` call whose handler completes successfully does not return
the handler's SearchResult — the emission failure is caught by the same
broad `except` as handler failures and replaces the result with an
Error-variant ToolResult. -/
theorem emit_failure_masks_result_cex :
    (execute envBoom stA [] "semantic_search" searchArgs).result =
      ToolResult.toolError "Redis connection refused" ∧
    (execute envBoom stA [] "semantic_search" searchArgs).result ≠
      ToolResult.search [] 0 "renamed field" := by
  exact ⟨by decide, by decide⟩

/-- C3 (amended): when the handler completes successfully and the subsequent
side-channel event emission raises, `execute` returns an Error-variant
ToolResult carrying the emission failure's message in place of the handler's
result; the handler's agent-state and persistence effects are retained, and
no event is delivered. -/
theorem emit_failure_replaces_result_keeps_effects (env : Env) (st : AgentState)
    (db : List EditSuggestionRec) (name : String) (raw : RawArgs) (v : ValidatedArgs) (m : String)
    (hval : validate_tool_args name raw = Except.ok v)
    (hm : env.emitRaises = some m)
    (hev : emitsFor st.query_id name raw (dispatch env st db v).result ≠ []) :
    execute env st db name raw =
      { result := .toolError m
        state := (dispatch env st db v).state
        db := (dispatch env st db v).db
        events := [] } := by
  simp only [execute, hval, hm]
  rw [if_neg]
  simp only [List.isEmpty_iff]
  exact hev

/-- C3 witness: the amended theorem at the concrete failing-bus environment
and a concrete `semantic_search` call. -/
theorem emit_failure_replaces_result_witness :
    execute envBoom stA [] "semantic_search" searchArgs =
      { result := .toolError "Redis connection refused"
        state := (dispatch envBoom stA []
          (ValidatedArgs.semanticSearch
            { query := "renamed field", n_results := 10, file_path_filter := none })).state
        db := (dispatch envBoom stA []
          (ValidatedArgs.semanticSearch
            { query := "renamed field", n_results := 10, file_path_filter := none })).db
        events := [] } :=
  emit_failure_replaces_result_keeps_effects envBoom stA [] "semantic_search" searchArgs
    (ValidatedArgs.semanticSearch
      { query := "renamed field", n_results := 10, file_path_filter := none })
    "Redis connection refused" rfl rfl (by decide)

/-- C6: a `propose_edit` call that validates but targets a section id absent
from the repository returns the Error-variant result `Section {id} not
found`; the agent state (in particular `proposed_edits`) is unchanged, no
suggestion row is written, and no event is emitted. -/
theorem propose_edit_missing_section_no_effect (env : Env) (st : AgentState)
    (db : List EditSuggestionRec) (raw : RawArgs) (a : ProposeEditArgs)
    (hval : validate_tool_args "propose_edit" raw = Except.ok (ValidatedArgs.proposeEdit a))
    (hmiss : env.sections a.section_id = none) :
    execute env st db "propose_edit" raw =
      { result := .proposeErr ("Section " ++ a.section_id ++ " not found")
        state := st, db := db, events := [] } := by
  simp only [execute, hval]
  have hd : dispatch env st db (ValidatedArgs.proposeEdit a) = handleProposeEdit env st db a := rfl
  simp only [hd, handleProposeEdit, hmiss]
  cases env.emitRaises <;> simp [emitsFor]

/-- C6 witness: the theorem at the concrete environment whose repository
holds only `uuidA`, targeting the absent id `uuidB`. -/
theorem propose_edit_missing_section_witness :
    execute envA stA [] "propose_edit"
        { section_id := some uuidB, suggested_text := some "new"
          reasoning := some "why", confidence := some 1 } =
      { result := .proposeErr ("Section " ++ uuidB ++ " not found")
        state := stA, db := [], events := [] } :=
  propose_edit_missing_section_no_effect envA stA []
    { section_id := some uuidB, suggested_text := some "new"
      reasoning := some "why", confidence := some 1 }
    { section_id := uuidB, suggested_text := "new", reasoning := "why", confidence := 1 }
    rfl rfl

/-- C7: whenever `validate_tool_args` fails — an unknown tool name (any name
outside the fixed six always fails) or arguments rejected by the tool's
schema — `execute` returns an Error-variant ToolResult at once: no handler
runs, the agent state and the persistence table are untouched, and no event
is emitted. -/
theorem validation_failure_blocks_dispatch :
    (∀ (env : Env) (st : AgentState) (db : List EditSuggestionRec)
        (name : String) (raw : RawArgs) (e : String),
      validate_tool_args name raw = Except.error e →
      execute env st db name raw =
        { result := .toolError ("Validation error: " ++ e)
          state := st, db := db, events := [] }) ∧
    (∀ (name : String) (raw : RawArgs),
      name ∉ ["semantic_search", "get_section_content", "find_dependencies",
               "propose_edit", "get_document_structure", "search_by_file_path"] →
      validate_tool_args name raw = Except.error ("Unknown tool: " ++ name)) := by
  constructor
  · exact execute_of_validate_error
  · intro name raw hname
    simp only [List.mem_cons, List.not_mem_nil, or_false, not_or] at hname
    obtain ⟨h1, h2, h3, h4, h5, h6⟩ := hname
    unfold validate_tool_args
    rw [if_neg h1, if_neg h2, if_neg h3, if_neg h4, if_neg h5, if_neg h6]

/-- C7 witness: the theorem at the unknown tool name used by the repository's
own test (`nonexistent_tool`) and an empty argument bag. -/
theorem validation_failure_blocks_dispatch_witness :
    execute envA stA [] "nonexistent_tool" {} =
      { result := .toolError "Validation error: Unknown tool: nonexistent_tool"
        state := stA, db := [], events := [] } ∧
    validate_tool_args "nonexistent_tool" {} =
      Except.error ("Unknown tool: " ++ "nonexistent_tool") :=
  ⟨validation_failure_blocks_dispatch.1 envA stA [] "nonexistent_tool" {} _ rfl,
   validation_failure_blocks_dispatch.2 "nonexistent_tool" {} (by decide)⟩


/-- C4 counterexample: a run in the terminal `Failed` status is admitted by
the process routes, and the orchestrator's first persisted status write for
an admitted run is `Processing` — the core does set a terminal run back to
`Processing`, so retrying does not require creating a new run. -/
theorem failed_run_reenters_processing_cex :
    processAdmits QueryStatus.failed = true ∧
    statusWriteAllowed QueryStatus.failed QueryStatus.processing = true ∧
    (processRun envA llmDone (some qFailed) "q1" "t" []).statusWrites.head? =
      some QueryStatus.processing := by
  refine ⟨rfl, rfl, by decide⟩

/-- C4 (amended): persisted status transitions into `Processing` happen
exactly for runs the process routes admit — `Pending` and `Failed` runs; a
`Completed` run is never set back to `Processing` (nor is a run already
`Processing`), but a `Failed` run is re-entered into `Processing` in place
when reprocessed. -/
theorem terminal_status_reentry :
    (∀ s : QueryStatus, statusWriteAllowed s QueryStatus.processing = processAdmits s) ∧
    processAdmits QueryStatus.completed = false ∧
    processAdmits QueryStatus.processing = false ∧
    processAdmits QueryStatus.pending = true ∧
    processAdmits QueryStatus.failed = true :=
  ⟨fun _ => rfl, rfl, rfl, rfl, rfl⟩

/-- C5 counterexample: for a concrete completed run, the emitted `completed`
event's payload carries only `total_suggestions` and `query_id` — the
`searches_performed`, `sections_analyzed` and `suggestions_created` fields
the claim requires are absent. -/
theorem completed_event_payload_cex :
    (processRun envA llmDone (some qPending) "q1" "t" []).events.getLast? =
      some (completedEvent "q1" 0) ∧
    dataGet (completedEvent "q1" 0).data "total_suggestions" = some (JVal.i 0) ∧
    dataGet (completedEvent "q1" 0).data "query_id" = some (JVal.s "q1") ∧
    dataGet (completedEvent "q1" 0).data "searches_performed" = none ∧
    dataGet (completedEvent "q1" 0).data "sections_analyzed" = none ∧
    dataGet (completedEvent "q1" 0).data "suggestions_created" = none := by
  refine ⟨by decide, by decide, by decide, by decide, by decide, by decide⟩

/-- C5 (amended): the `completed` event's payload contains exactly the
fields `total_suggestions` and `query_id`, and every completed run's final
emitted event is that `completed` event carrying the run's suggestion
count. -/
theorem completed_event_payload_fields :
    (∀ (qid : String) (n : Nat),
      (completedEvent qid n).data.map Prod.fst = ["total_suggestions", "query_id"]) ∧
    (∀ (env : Env) (llm : Nat → Except String LlmReply) (q : QueryRec)
        (qid qt : String) (db : List EditSuggestionRec),
      env.emitRaises = none →
      (processRun env llm (some q) qid qt db).resultStatus = "completed" →
      (processRun env llm (some q) qid qt db).events.getLast? =
        some (completedEvent qid
          (processRun env llm (some q) qid qt db).state.proposed_edits.length)) := by
  constructor
  · intro qid n; rfl
  · intro env llm q qid qt db hem hstat
    simp only [processRun, hem] at hstat ⊢
    rcases hout : (agentLoop env llm MAX_ITERATIONS 0 (initialAcc qid qt db)).error with _ | e
    · simp only [hout] at hstat ⊢
      simp only [List.getLast?_concat]
    · simp only [hout] at hstat
      exact absurd hstat (by decide)

/-- C5 witness: the amended theorem at a concrete completed run. -/
theorem completed_event_payload_witness :
    (completedEvent "q1" 0).data.map Prod.fst = ["total_suggestions", "query_id"] ∧
    (processRun envA llmDone (some qPending) "q1" "t" []).events.getLast? =
      some (completedEvent "q1"
        (processRun envA llmDone (some qPending) "q1" "t" []).state.proposed_edits.length) :=
  ⟨completed_event_payload_fields.1 "q1" 0,
   completed_event_payload_fields.2 envA llmDone qPending "q1" "t" [] rfl (by decide)⟩

/-! ### Helper lemmas about the bus views -/

/-- The stream-end sentinel tests positive. -/
theorem isStreamEnd_streamEndEvent (qid : String) :
    isStreamEnd (streamEndEvent qid) = true := rfl

/-- A take-while over entries that all pass keeps the whole list. -/
theorem takeWhile_of_all_pass (l : List QueryEvent)
    (h : ∀ e ∈ l, isStreamEnd e = false) :
    l.takeWhile (fun e => ! isStreamEnd e) = l := by
  induction l with
  | nil => rfl
  | cons a t ih =>
    have ha := h a (by simp)
    have ht := ih (fun e he => h e (by simp [he]))
    simp [List.takeWhile_cons, ha, ht]

/-- A take-while over passing entries followed by the sentinel yields
exactly the passing entries: the sentinel terminates the read without being
yielded. -/
theorem takeWhile_stops_at_sentinel (l : List QueryEvent) (s : QueryEvent)
    (hl : ∀ e ∈ l, isStreamEnd e = false) (hs : isStreamEnd s = true) :
    (l ++ [s]).takeWhile (fun e => ! isStreamEnd e) = l := by
  induction l with
  | nil => simp [List.takeWhile_cons, hs]
  | cons a t ih =>
    have ha := hl a (by simp)
    have ht := ih (fun e he => hl e (by simp [he]))
    simp [List.takeWhile_cons, ha, ht]

/-- Every entry of the trimmed append is an old entry or the appended one. -/
theorem mem_xadd (log : List QueryEvent) (e a : QueryEvent)
    (ha : a ∈ xadd log e) : a ∈ log ∨ a = e := by
  unfold xadd at ha
  rw [List.mem_reverse] at ha
  have h2 := List.take_subset _ _ ha
  rw [List.mem_reverse] at h2
  simp only [List.mem_append, List.mem_singleton] at h2
  exact h2

/-- Every entry of the log after a sequence of publishes is an original
entry or one of the published events. -/
theorem mem_publishAll (evs : List QueryEvent) :
    ∀ (log : List QueryEvent) (a : QueryEvent),
      a ∈ publishAll log evs → a ∈ log ∨ a ∈ evs := by
  induction evs with
  | nil => intro log a ha; exact Or.inl ha
  | cons e t ih =>
    intro log a ha
    simp only [publishAll] at ha
    rcases ih (xadd log e) a ha with h | h
    · rcases mem_xadd log e a h with h | h
      · exact Or.inl h
      · subst h
        exact Or.inr (List.mem_cons_self a t)
    · exact Or.inr (List.mem_cons_of_mem e h)

/-- C10: for the in-process publisher, `publish` after `close` is a no-op
(the event is not enqueued, hence never yielded); `close` enqueues exactly
the stream-end sentinel; and `events()` yields exactly the events enqueued
before `close`, consuming the sentinel to terminate without yielding it. -/
theorem direct_publisher_close_semantics (p : DirectPublisher) (e : QueryEvent)
    (hq : ∀ ev ∈ p.queue, isStreamEnd ev = false) :
    p.close.publish e = p.close ∧
    p.close.queue = p.queue ++ [streamEndEvent p.query_id] ∧
    directEventsView p.close.queue = p.queue := by
  refine ⟨?_, rfl, ?_⟩
  · unfold DirectPublisher.publish DirectPublisher.close
    simp
  · unfold directEventsView DirectPublisher.close
    exact takeWhile_stops_at_sentinel p.queue _ hq (isStreamEnd_streamEndEvent p.query_id)

/-- C10 witness: the theorem at a concrete open publisher holding one
content event. -/
theorem direct_publisher_close_witness :
    DirectPublisher.publish
        (DirectPublisher.close
          { query_id := "q1", queue := [statusEvent "q1" "processing" "m"], closed := false })
        (statusEvent "q1" "late" "x") =
      DirectPublisher.close
        { query_id := "q1", queue := [statusEvent "q1" "processing" "m"], closed := false } ∧
    (DirectPublisher.close
        { query_id := "q1", queue := [statusEvent "q1" "processing" "m"], closed := false }).queue =
      [statusEvent "q1" "processing" "m"] ++ [streamEndEvent "q1"] ∧
    directEventsView
        (DirectPublisher.close
          { query_id := "q1", queue := [statusEvent "q1" "processing" "m"], closed := false }).queue =
      [statusEvent "q1" "processing" "m"] :=
  direct_publisher_close_semantics
    { query_id := "q1", queue := [statusEvent "q1" "processing" "m"], closed := false }
    (statusEvent "q1" "late" "x") (by decide)

/-- C8: an event published to the durable bus is still yielded to a
subscriber that connects after the publication — the reader starts from the
beginning of the log — both while the stream is open and after `close`
appends the sentinel, provided the event is still among the retained
entries at read time. -/
theorem durable_bus_late_subscriber_no_loss (evs : List QueryEvent) (qid : String)
    (e : QueryEvent) (hno : ∀ ev ∈ evs, isStreamEnd ev = false) :
    (e ∈ publishAll [] evs → e ∈ subscriberView (publishAll [] evs)) ∧
    (e ∈ closeStream qid (publishAll [] evs) → isStreamEnd e = false →
      e ∈ subscriberView (closeStream qid (publishAll [] evs))) := by
  have hmemL : ∀ a ∈ publishAll [] evs, isStreamEnd a = false := by
    intro a ha
    rcases mem_publishAll evs [] a ha with h | h
    · exact absurd h (List.not_mem_nil a)
    · exact hno a h
  constructor
  · intro he
    unfold subscriberView
    rw [takeWhile_of_all_pass _ hmemL]
    exact he
  · intro he hne
    unfold subscriberView
    unfold closeStream xadd at he ⊢
    rw [List.reverse_append, List.reverse_singleton, List.singleton_append,
        show STREAM_MAX_LEN = 999 + 1 from rfl, List.take_succ_cons,
        List.reverse_cons] at he ⊢
    have hsub : ∀ a ∈ ((publishAll [] evs).reverse.take 999).reverse,
        isStreamEnd a = false := by
      intro a hamem
      rw [List.mem_reverse] at hamem
      have h2 := List.take_subset _ _ hamem
      rw [List.mem_reverse] at h2
      exact hmemL a h2
    rw [takeWhile_stops_at_sentinel _ _ hsub (isStreamEnd_streamEndEvent qid)]
    simp only [List.mem_append, List.mem_singleton] at he
    rcases he with he | he
    · exact he
    · rw [he, isStreamEnd_streamEndEvent] at hne
      exact absurd hne (by simp)

/-- C8 witness: the theorem at a one-event publication read back both before
and after close. -/
theorem durable_bus_late_subscriber_witness :
    statusEvent "q1" "processing" "m" ∈
      subscriberView (publishAll [] [statusEvent "q1" "processing" "m"]) ∧
    statusEvent "q1" "processing" "m" ∈
      subscriberView (closeStream "q1" (publishAll [] [statusEvent "q1" "processing" "m"])) :=
  ⟨(durable_bus_late_subscriber_no_loss [statusEvent "q1" "processing" "m"] "q1"
      (statusEvent "q1" "processing" "m") (by decide)).1 (by decide),
   (durable_bus_late_subscriber_no_loss [statusEvent "q1" "processing" "m"] "q1"
      (statusEvent "q1" "processing" "m") (by decide)).2 (by decide) (by decide)⟩

/-! ### Helper lemmas about the agentic loop -/

/-- The loop makes at most `fuel` completion calls. -/
theorem agentLoop_calls_le (env : Env) (llm : Nat → Except String LlmReply) :
    ∀ (fuel iter : Nat) (acc : LoopAcc), (agentLoop env llm fuel iter acc).calls ≤ fuel := by
  intro fuel
  induction fuel with
  | zero => intro iter acc; exact Nat.le_refl 0
  | succ n ih =>
    intro iter acc
    unfold agentLoop
    rcases hllm : llm iter with e | reply
    · exact Nat.succ_le_succ (Nat.zero_le n)
    · by_cases ht : reply.toolCalls.isEmpty = true
      · simp only [ht, if_true]
        exact Nat.succ_le_succ (Nat.zero_le n)
      · simp only [ht, if_false]
        exact Nat.succ_le_succ (ih _ _)

/-- If every completion call in the remaining iteration window succeeds and
requests at least one tool call, the loop finishes without an error. -/
theorem agentLoop_error_none (env : Env) (llm : Nat → Except String LlmReply) :
    ∀ (fuel iter : Nat) (acc : LoopAcc),
      (∀ i, iter ≤ i → i < iter + fuel → ∃ r, llm i = Except.ok r ∧ r.toolCalls ≠ []) →
      (agentLoop env llm fuel iter acc).error = none := by
  intro fuel
  induction fuel with
  | zero => intro iter acc _; rfl
  | succ n ih =>
    intro iter acc h
    obtain ⟨r, hr, hrt⟩ := h iter (Nat.le_refl iter) (by omega)
    unfold agentLoop
    rw [hr]
    have ht : r.toolCalls.isEmpty = false := by
      cases hc : r.toolCalls with
      | nil => exact absurd hc hrt
      | cons x xs => rfl
    simp only [ht, Bool.false_eq_true, if_false]
    exact ih (iter + 1) _ (fun i h1 h2 => h i (by omega) (by omega))

/-- C2: every run makes at most `MAX_ITERATIONS` (15) completion calls; and
a run whose completion collaborator succeeds with at least one tool call on
all 15 iterations — so that the loop exhausts the ceiling without a
no-tool-calls reply — still terminates with the persisted status
`Completed`, never `Failed`. -/
theorem iteration_ceiling_and_completion (env : Env) (llm : Nat → Except String LlmReply)
    (qrow : Option QueryRec) (qid qt : String) (db : List EditSuggestionRec) :
    (processRun env llm qrow qid qt db).llmCalls ≤ MAX_ITERATIONS ∧
    (env.emitRaises = none → qrow.isSome = true →
      (∀ i, i < MAX_ITERATIONS → ∃ r, llm i = Except.ok r ∧ r.toolCalls ≠ []) →
      ∃ q', (processRun env llm qrow qid qt db).queryAfter = some q' ∧
        q'.status = QueryStatus.completed ∧
        (processRun env llm qrow qid qt db).resultStatus = "completed") := by
  constructor
  · rcases qrow with _ | q
    · rcases henv : env.emitRaises with _ | m <;>
        simp [processRun, henv, MAX_ITERATIONS]
    · rcases henv : env.emitRaises with _ | m
      · simp only [processRun, henv]
        rcases hout : (agentLoop env llm MAX_ITERATIONS 0 (initialAcc qid qt db)).error
          with _ | e <;> simp only [hout] <;>
          exact agentLoop_calls_le env llm _ _ _
      · simp [processRun, henv, MAX_ITERATIONS]
  · intro hem hsome hall
    rcases qrow with _ | q
    · exact absurd hsome (by simp)
    · have herr := agentLoop_error_none env llm MAX_ITERATIONS 0 (initialAcc qid qt db)
        (fun i h1 h2 => hall i (by omega))
      simp only [processRun, hem, herr]
      exact ⟨_, rfl, rfl, trivial⟩


/-- C2 witness: the theorem at a concrete run whose completion collaborator
requests a tool call on every one of the 15 iterations. -/
theorem iteration_ceiling_witness :
    (processRun envA llmAlwaysTool (some qPending) "q1" "t" []).llmCalls ≤ MAX_ITERATIONS ∧
    ∃ q', (processRun envA llmAlwaysTool (some qPending) "q1" "t" []).queryAfter = some q' ∧
      q'.status = QueryStatus.completed ∧
      (processRun envA llmAlwaysTool (some qPending) "q1" "t" []).resultStatus = "completed" :=
  ⟨(iteration_ceiling_and_completion envA llmAlwaysTool (some qPending) "q1" "t" []).1,
   (iteration_ceiling_and_completion envA llmAlwaysTool (some qPending) "q1" "t" []).2
     rfl rfl (fun i _ => ⟨_, rfl, by decide⟩)⟩


/-- Side-channel events are never `tool_call` events. -/
theorem emitsFor_not_toolCall (qid name : String) (raw : RawArgs) (r : ToolResult) :
    ∀ e ∈ emitsFor qid name raw r, isToolCallEvent e = false := by
  intro e he
  cases r with
  | search results c q =>
    have he' : e ∈ (if name = "semantic_search"
        then [searchCompleteEvent qid c ("Found " ++ toString c ++ " relevant sections")]
        else []) := he
    by_cases hn : name = "semantic_search"
    · rw [if_pos hn] at he'
      simp only [List.mem_singleton] at he'
      subst he'; rfl
    · rw [if_neg hn] at he'
      exact absurd he' (List.not_mem_nil e)
  | proposeOk info =>
    have he' : e ∈ (if name = "propose_edit"
        then [suggestionEvent qid info.suggestion_id info.section_title
          (info.file_path.getD "") info.confidence ((raw.suggested_text.getD "").take 200)]
        else []) := he
    by_cases hn : name = "propose_edit"
    · rw [if_pos hn] at he'
      simp only [List.mem_singleton] at he'
      subst he'; rfl
    · rw [if_neg hn] at he'
      exact absurd he' (List.not_mem_nil e)
  | toolError er => exact absurd he (List.not_mem_nil e)
  | sectionContent sid t c fp o => exact absurd he (List.not_mem_nil e)
  | sectionErr er => exact absurd he (List.not_mem_nil e)
  | deps sid d => exact absurd he (List.not_mem_nil e)
  | proposeErr er => exact absurd he (List.not_mem_nil e)
  | docStructure did fp t s => exact absurd he (List.not_mem_nil e)
  | docStructureErr er => exact absurd he (List.not_mem_nil e)
  | filePathSearch r c p => exact absurd he (List.not_mem_nil e)

/-- The events `execute` delivers are never `tool_call` events (those are
emitted by the orchestrator loop, not by the executor). -/
theorem execute_events_not_toolCall (env : Env) (st : AgentState)
    (db : List EditSuggestionRec) (name : String) (raw : RawArgs) :
    ∀ e ∈ (execute env st db name raw).events, isToolCallEvent e = false := by
  intro e he
  rcases hval : validate_tool_args name raw with er | v
  · rw [execute_of_validate_error env st db name raw er hval] at he
    exact absurd he (List.not_mem_nil e)
  · simp only [execute, hval] at he
    rcases henv : env.emitRaises with _ | m
    · rw [henv] at he
      exact emitsFor_not_toolCall st.query_id name raw _ e he
    · rw [henv] at he
      have he' : e ∈ (if (emitsFor st.query_id name raw
            (dispatch env st db v).result).isEmpty = true
          then ({ result := (dispatch env st db v).result
                  state := (dispatch env st db v).state
                  db := (dispatch env st db v).db, events := [] } : ExecOutcome)
          else { result := .toolError m, state := (dispatch env st db v).state
                 db := (dispatch env st db v).db, events := [] }).events := he
      by_cases hq : (emitsFor st.query_id name raw (dispatch env st db v).result).isEmpty = true
      · rw [if_pos hq] at he'
        exact absurd he' (List.not_mem_nil e)
      · rw [if_neg hq] at he'
        exact absurd he' (List.not_mem_nil e)

/-- No handler touches the transcript. -/
theorem dispatch_messages_eq (env : Env) (st : AgentState)
    (db : List EditSuggestionRec) (v : ValidatedArgs) :
    (dispatch env st db v).state.messages = st.messages := by
  cases v with
  | semanticSearch a => rfl
  | getSectionContent a =>
    show (handleGetSection env st db a).state.messages = st.messages
    unfold handleGetSection
    cases env.sections a.section_id <;> rfl
  | findDependencies a => rfl
  | proposeEdit a =>
    show (handleProposeEdit env st db a).state.messages = st.messages
    unfold handleProposeEdit
    cases env.sections a.section_id <;> rfl
  | getDocumentStructure a =>
    show (handleGetDocumentStructure env st db a).state.messages = st.messages
    unfold handleGetDocumentStructure
    cases env.documents a.document_id <;> rfl
  | searchByFilePath a => rfl

/-- Model of `execute` never touches the transcript. -/
theorem execute_messages_eq (env : Env) (st : AgentState)
    (db : List EditSuggestionRec) (name : String) (raw : RawArgs) :
    (execute env st db name raw).state.messages = st.messages := by
  rcases hval : validate_tool_args name raw with er | v
  · rw [execute_of_validate_error env st db name raw er hval]
  · rw [execute_state_of_validate_ok env st db name raw v hval]
    exact dispatch_messages_eq env st db v

/-- Appending an assistant turn preserves the correlation invariant. -/
theorem corrInv_append_assistant (acc : LoopAcc) (r : LlmReply) (h : corrInv acc) :
    corrInv { acc with st := { acc.st with
      messages := acc.st.messages ++ [assistantMessage r] } } := by
  obtain ⟨h1, h2, h3⟩ := h
  have hm : isToolTurn (assistantMessage r) = false := rfl
  refine ⟨?_, ?_, h3⟩
  · simpa [List.filter_append, hm] using h1
  · simpa [List.filter_append, hm] using h2

/-- Appending a `status` event preserves the correlation invariant. -/
theorem corrInv_append_status (acc : LoopAcc) (qid s msg : String) (h : corrInv acc) :
    corrInv { acc with events := acc.events ++ [statusEvent qid s msg] } := by
  obtain ⟨h1, h2, h3⟩ := h
  have he : isToolCallEvent (statusEvent qid s msg) = false := rfl
  refine ⟨?_, h2, ?_⟩
  · simpa [List.filter_append, he] using h1
  · simpa [List.filter_append, he] using h3

/-- Processing a batch of requested tool calls preserves the correlation
invariant: each call adds exactly one `tool_call` event and one tool-result
turn keyed by the call's id. -/
theorem runToolCalls_inv (env : Env) :
    ∀ (calls : List LlmToolCall) (acc : LoopAcc),
      corrInv acc → corrInv (runToolCalls env acc calls) := by
  intro calls
  induction calls with
  | nil => intro acc h; exact h
  | cons c rest ih =>
    intro acc h
    obtain ⟨h1, h2, h3⟩ := h
    simp only [runToolCalls]
    apply ih
    have hexecmsg := execute_messages_eq env acc.st acc.db c.name c.args
    have hexecev := execute_events_not_toolCall env acc.st acc.db c.name c.args
    have hfilterexec :
        ((execute env acc.st acc.db c.name c.args).events.filter isToolCallEvent) = [] := by
      rw [List.filter_eq_nil_iff]
      intro a ha
      simp [hexecev a ha]
    have htce : isToolCallEvent (toolCallEvent acc.st.query_id c.name c.args.toBag) = true := rfl
    have htm : isToolTurn (toolMessage c.id (execute env acc.st acc.db c.name c.args).result) =
        true := rfl
    refine ⟨?_, ?_, ?_⟩
    · simp [List.filter_append, hfilterexec, htce, htm, hexecmsg, h1]
    · simp [List.filter_append, htm, hexecmsg, List.map_append, h2]
      rfl
    · simp [List.filter_append, hfilterexec, htce, List.map_append, h3]
      rfl

/-- The agentic loop preserves the correlation invariant. -/
theorem agentLoop_inv (env : Env) (llm : Nat → Except String LlmReply) :
    ∀ (fuel iter : Nat) (acc : LoopAcc),
      corrInv acc → corrInv (agentLoop env llm fuel iter acc).acc := by
  intro fuel
  induction fuel with
  | zero => intro iter acc h; exact h
  | succ n ih =>
    intro iter acc h
    unfold agentLoop
    rcases hllm : llm iter with e | reply
    · exact h
    · by_cases ht : reply.toolCalls.isEmpty = true
      · simp only [ht, if_true]
        exact corrInv_append_status _ _ _ _ (corrInv_append_assistant acc reply h)
      · simp only [ht, if_false]
        exact ih _ _ (runToolCalls_inv env _ _ (corrInv_append_assistant acc reply h))

/-- C9: in every run, the number of `tool_call` events emitted equals the
number of tool-result turns appended to the transcript; the tool-result
turns are keyed, in order, by the ids of the dispatched tool calls; and the
`tool_call` events name, in the same order, the tools of those same
dispatched calls — so each tool-result turn's correlation id matches the
tool call for which a `tool_call` event was emitted earlier in the run. -/
theorem tool_call_events_match_transcript (env : Env) (llm : Nat → Except String LlmReply)
    (qrow : Option QueryRec) (qid qt : String) (db : List EditSuggestionRec) :
    ((processRun env llm qrow qid qt db).events.filter isToolCallEvent).length =
      ((processRun env llm qrow qid qt db).state.messages.filter isToolTurn).length ∧
    ((processRun env llm qrow qid qt db).state.messages.filter isToolTurn).map
        (fun m => m.tool_call_id) =
      (processRun env llm qrow qid qt db).dispatched.map (fun c => some c.id) ∧
    ((processRun env llm qrow qid qt db).events.filter isToolCallEvent).map
        (fun e => dataGet e.data "tool") =
      (processRun env llm qrow qid qt db).dispatched.map (fun c => some (JVal.s c.name)) := by
  rcases qrow with _ | q
  · rcases henv : env.emitRaises with _ | m <;>
      simp [processRun, henv, isToolCallEvent, errorEvent]
  · rcases henv : env.emitRaises with _ | m
    · have hinv0 : corrInv (initialAcc qid qt db) := ⟨rfl, rfl, rfl⟩
      have hloop := agentLoop_inv env llm MAX_ITERATIONS 0 (initialAcc qid qt db) hinv0
      obtain ⟨g1, g2, g3⟩ := hloop
      rcases hout : (agentLoop env llm MAX_ITERATIONS 0 (initialAcc qid qt db)).error with _ | e
      · have hce : isToolCallEvent (completedEvent qid
            (agentLoop env llm MAX_ITERATIONS 0
              (initialAcc qid qt db)).acc.st.proposed_edits.length) = false := rfl
        simp only [processRun, henv, hout]
        refine ⟨?_, g2, ?_⟩
        · simpa [List.filter_append, hce] using g1
        · simpa [List.filter_append, hce] using g3
      · have hee : isToolCallEvent (errorEvent qid e none) = false := rfl
        simp only [processRun, henv, hout]
        refine ⟨?_, g2, ?_⟩
        · simpa [List.filter_append, hee] using g1
        · simpa [List.filter_append, hee] using g3
    · simp [processRun, henv]

end DocReader
